import Mathlib

/-!
Shallow embedding of `storage_media.py` (USB storage-media probing and
correlation).  External collaborators (the OS filesystem, the `mount` and
`fdisk` commands) appear as explicit parameters: their textual outputs are
plain `String` inputs and filesystem predicates are functions
`String → Bool` / `String → String`.  Python string primitives used by the
source (`str.split`, `str.strip`, `str.find`, `os.path.basename`,
`f.readlines`, `int(...)`, `str.format`) are modelled character-exactly
below, and fallible Python code (code that may raise) returns `Option`.
-/

/-- Whitespace as recognised by Python `str.split()` / `str.strip()`. -/
def pyIsSpace (c : Char) : Bool :=
  c = ' ' ∨ c = '\t' ∨ c = '\n' ∨ c = '\r' ∨ c = '\x0b' ∨ c = '\x0c'

/-- Python `str.strip()`: drop leading and trailing whitespace. -/
def pyStrip (s : String) : String :=
  ⟨((s.data.dropWhile pyIsSpace).reverse.dropWhile pyIsSpace).reverse⟩

/-- Worker for `pySplitWs`; `cur` is the current token, reversed. -/
def splitWsAux : List Char → List Char → List String
  | [], cur => if cur.isEmpty then [] else [⟨cur.reverse⟩]
  | c :: rest, cur =>
    if pyIsSpace c then
      if cur.isEmpty then splitWsAux rest []
      else ⟨cur.reverse⟩ :: splitWsAux rest []
    else splitWsAux rest (c :: cur)

/-- Python `str.split()` with no argument: split on runs of whitespace,
dropping empty tokens. -/
def pySplitWs (s : String) : List String :=
  splitWsAux s.data []

/-- Worker for `pyLines`. -/
def splitNlAux : List Char → List Char → List String
  | [], cur => [⟨cur.reverse⟩]
  | c :: rest, cur =>
    if c = '\n' then ⟨cur.reverse⟩ :: splitNlAux rest []
    else splitNlAux rest (c :: cur)

/-- Python `s.split('\n')`: split on every newline, keeping empty pieces
(`"".split('\n') == [""]`, and a trailing newline yields a trailing `""`). -/
def pyLines (s : String) : List String :=
  splitNlAux s.data []

/-- Worker for `pyReadlines`. -/
def readlinesAux : List Char → List Char → List String
  | [], cur => if cur.isEmpty then [] else [⟨cur.reverse⟩]
  | c :: rest, cur =>
    if c = '\n' then ⟨(c :: cur).reverse⟩ :: readlinesAux rest []
    else readlinesAux rest (c :: cur)

/-- Python `f.readlines()` on a file whose content is `s`: each line keeps
its terminating newline, and a trailing newline does not produce an extra
empty line. -/
def pyReadlines (s : String) : List String :=
  readlinesAux s.data []

/-- Python `os.path.basename`: everything after the last slash. -/
def pyBasename (s : String) : String :=
  ⟨(s.data.reverse.takeWhile (fun c => ¬ c = '/')).reverse⟩

/-- Digit-string to number; `none` unless the string is one or more
decimal digits. -/
def digitsToNat : List Char → Option Nat
  | [] => none
  | [c] => if c.isDigit then some (c.toNat - '0'.toNat) else none
  | c :: rest =>
    if c.isDigit then
      (digitsToNat rest).map (fun n => (c.toNat - '0'.toNat) * 10 ^ rest.length + n)
    else none

/-- Python `int(s)` for decimal strings: strip whitespace, allow an
optional sign, then require digits; raises (`none`) otherwise. -/
def pyInt (s : String) : Option Int :=
  match (pyStrip s).data with
  | '-' :: rest => (digitsToNat rest).map (fun n => -(n : Int))
  | '+' :: rest => (digitsToNat rest).map (fun n => (n : Int))
  | l => (digitsToNat l).map (fun n => (n : Int))

/-- Index of the first occurrence of `sub` in `l`, if any. -/
def findSub (sub : List Char) : List Char → Option Nat
  | [] => if sub.isEmpty then some 0 else none
  | c :: t =>
    if sub.isPrefixOf (c :: t) then some 0
    else (findSub sub t).map (fun n => n + 1)

/-- `sub` occurs in `l` starting at index `i`. -/
def occursAt (l sub : List Char) (i : Nat) : Prop :=
  sub.isPrefixOf (l.drop i) = true

instance (l sub : List Char) (i : Nat) : Decidable (occursAt l sub i) := by
  unfold occursAt; infer_instance

/-- Python `s.find(sub)`: index of the first occurrence, `-1` if absent. -/
def pyFind (s sub : String) : Int :=
  match findSub sub.data s.data with
  | some i => (i : Int)
  | none => -1

/-- Split `l` at the first occurrence of `sep` that leaves a nonempty piece
before it (the piece before may itself contain other characters freely).
Returns the pieces before and after the separator. -/
def splitFirstL (l sep : List Char) : Option (List Char × List Char) :=
  match l with
  | [] => none
  | c :: t =>
    match findSub sep t with
    | some j => some (c :: t.take j, t.drop (j + sep.length))
    | none => none

/-- Sequence an option-returning function over a list, failing if any
element fails (the shape of a Python loop whose body may raise). -/
def optMap (f : α → Option β) : List α → Option (List β)
  | [] => some []
  | a :: l =>
    match f a with
    | none => none
    | some b => (optMap f l).map (fun bs => b :: bs)

/-- Python rendering of an optional string (`None` prints as `"None"`). -/
def pyShowOpt : Option String → String
  | none => "None"
  | some s => s

/-- Worker for `pyFormat`: substitute arguments for `\x7b\x7d` holes. -/
def pyFormatAux : List Char → List String → Option (List Char)
  | [], _ => some []
  | ['\x7b', '\x7d'], a :: _ => some a.data
  | '\x7b' :: '\x7d' :: rest, a :: args => (pyFormatAux rest args).map (fun l => a.data ++ l)
  | '\x7b' :: '\x7d' :: _, [] => none
  | c :: rest, args => (pyFormatAux rest args).map (fun l => c :: l)

/-- Python `template.format(*args)` restricted to plain `\x7b\x7d` holes:
fails (raises) when there are more holes than arguments; extra arguments
are ignored. -/
def pyFormat (template : String) (args : List String) : Option String :=
  (pyFormatAux template.data args).map (fun l => ⟨l⟩)

/-- `Mountpoint` (class `Mountpoint` in the source): one parsed line of
the `mount` command's output. -/
structure Mountpoint where
  partition : String
  mountpoint : String
  fs_format : String
  details : String
deriving DecidableEq

/-- `MediaDevice` (class `MediaDevice` in the source): data collected
about one block device.  The sysfs attributes are tri-state: `none` is the
Python `None` sentinel used when the sysfs file is absent. -/
structure MediaDevice where
  device : String
  device_name : String
  block_path : String
  media_path : String
  partition : String
  removable : Option Bool
  size : Option Int
  vendor : Option String
  model : Option String
deriving DecidableEq

/-- `StorageMediaUsb` (class `StorageMediaUsb` in the source): one
correlated (media device, mountpoint) pair. -/
structure StorageMediaUsb where
  media_device : MediaDevice
  mountpoint : Mountpoint
deriving DecidableEq

/-- OS state visible to the mount/unmount operations: which paths are
currently mount points (`os.path.ismount`). -/
structure OsState where
  ismount : String → Bool

/-- Model of the `parse` library call `parse("\x7b\x7d on \x7b\x7d type \x7b\x7d \x7b\x7d", line)`
used at line 79 of the source.  The library compiles the format to the
anchored non-greedy regular expression `(.+?) on (.+?) type (.+?) (.+?)`
and matches the whole line; the non-greedy groups make the match split at
the first occurrence of each separator that leaves every group nonempty,
which is what the nested `splitFirstL` calls compute. -/
def parseMountLine (line : String) : Option Mountpoint :=
  match splitFirstL line.data (" on ".data) with
  | none => none
  | some (g1, r1) =>
    match splitFirstL r1 (" type ".data) with
    | none => none
    | some (g2, r2) =>
      match splitFirstL r2 (" ".data) with
      | none => none
      | some (g3, g4) =>
        if g4.isEmpty then none
        else some ⟨⟨g1⟩, ⟨g2⟩, ⟨g3⟩, ⟨g4⟩⟩

/-- The loop of `Mountpoint.probe_mountpoints` (source lines 77-82): for
each line of the `mount` output, skip it if empty, otherwise parse it; a
parse failure raises (making the whole probe fail with no records). -/
def Mountpoint.probe_loop : List String → Option (List Mountpoint)
  | [] => some []
  | line :: rest =>
    if line = "" then Mountpoint.probe_loop rest
    else
      match parseMountLine line with
      | none => none
      | some r => (Mountpoint.probe_loop rest).map (fun l => r :: l)

/-- `Mountpoint.probe_mountpoints` (source lines 72-84), as a function of
the `mount` command's output text. -/
def Mountpoint.probe_mountpoints (mount_output : String) : Option (List Mountpoint) :=
  Mountpoint.probe_loop (pyLines mount_output)

/-- The partition-deriving step of `MediaDevice.__init__` (source lines
113-114): `fdisk_output.split("\n")[-2].split()[0].strip()`, as a function
of the `fdisk -l` output text; `none` when Python would raise an
`IndexError`. -/
def MediaDevice.fdisk_partition (fdisk_output : String) : Option String :=
  let lines := pyLines fdisk_output
  if 2 ≤ lines.length then
    match lines.get? (lines.length - 2) with
    | none => none
    | some line =>
      match pySplitWs line with
      | [] => none
      | t :: _ => some (pyStrip t)
  else none

/-- `MediaDevice.__init__` (source lines 106-148).  `fileExists` and
`readFile` stand for `os.path.exists` / `open(...).read()`, and
`fdisk_output` is the text produced by `fdisk -l <device>`; `none` when
the constructor raises (partition parse failure or a malformed size
file). -/
def MediaDevice.init (fileExists : String → Bool) (readFile : String → String)
    (fdisk_output : String) (device : String) : Option MediaDevice :=
  let device_name := pyBasename device
  let block_path := "/sys/block/" ++ device_name
  let media_path := "/media/" ++ device_name
  match MediaDevice.fdisk_partition fdisk_output with
  | none => none
  | some partition =>
    let removable : Option Bool :=
      if fileExists (block_path ++ "/removable") then
        some (pyStrip (readFile (block_path ++ "/removable")) == "1")
      else none
    match
      (if fileExists (block_path ++ "/size") then
        match pyInt (pyStrip (readFile (block_path ++ "/size"))) with
        | none => none
        | some n => some (some (n * 512))
      else some none : Option (Option Int))
    with
    | none => none
    | some size =>
      let vendor : Option String :=
        if fileExists (block_path ++ "/device/vendor") then
          some (pyStrip (readFile (block_path ++ "/device/vendor")))
        else none
      let model : Option String :=
        if fileExists (block_path ++ "/device/model") then
          some (pyStrip (readFile (block_path ++ "/device/model")))
        else none
      some ⟨device, device_name, block_path, media_path, partition,
            removable, size, vendor, model⟩

/-- `MediaDevice.is_mounted` (source lines 153-154). -/
def MediaDevice.is_mounted (d : MediaDevice) (s : OsState) : Bool :=
  s.ismount d.media_path

/-- `MediaDevice.mount_partition` (source lines 159-163).  `runMkdir` and
`runMount` are the state transitions performed by the two `os.system`
calls.  When the device is already mounted the Python function falls off
the end and returns `None` (`none` here); otherwise it returns the
post-operation `is_mounted` state. -/
def MediaDevice.mount_partition (runMkdir runMount : OsState → OsState)
    (d : MediaDevice) (s : OsState) : Option Bool × OsState :=
  if d.is_mounted s then (none, s)
  else
    let s1 := runMkdir s
    let s2 := runMount s1
    (some (d.is_mounted s2), s2)

/-- One iteration of the device-candidate loop in
`MediaDevice.probe_media_devices` (source lines 196-206): split the row,
read its minor number (`int(words[1])`, which may raise) and device name
(`words[3]`), and keep `/dev/<name>` only when the minor number is a
multiple of 16, the class-block path is a symbolic link, and
`os.path.realpath(path).find("/usb") > 0`. -/
def parseRow (line : String) : Option (Int × String) :=
  match (pySplitWs line).get? 1, (pySplitWs line).get? 3 with
  | some w1, some w3 => (pyInt w1).map (fun m => (m, w3))
  | _, _ => none

/-- The candidate decision for one partition-listing row (body of the
loop at source lines 196-206); `some []` when the row is excluded,
`some [path]` when it contributes a device path, `none` when Python
raises on a malformed row. -/
def processRow (islink : String → Bool) (realpath : String → String)
    (line : String) : Option (List String) :=
  match parseRow line with
  | none => none
  | some (minor_number, device_name) =>
    if minor_number % 16 = 0 then
      let path := "/sys/class/block/" ++ device_name
      if islink path then
        if 0 < pyFind (realpath path) "/usb" then some ["/dev/" ++ device_name]
        else some []
      else some []
    else some []

/-- The candidate-collection loop of `MediaDevice.probe_media_devices`
over the partition-listing rows (after the two header lines are
dropped). -/
def MediaDevice.probe_media_paths (islink : String → Bool) (realpath : String → String) :
    List String → Option (List String)
  | [] => some []
  | line :: rest =>
    match processRow islink realpath line with
    | none => none
    | some ds => (MediaDevice.probe_media_paths islink realpath rest).map (fun l => ds ++ l)

/-- `MediaDevice.probe_media_devices` (source lines 192-214):
`partitions_content` is the text of `/proc/partitions`; the first two
header lines are skipped (`f.readlines()[2:]`), candidates are collected,
and a `MediaDevice` is constructed for each nonempty candidate path
(`fdisk_for` gives the `fdisk -l` output per device path). -/
def MediaDevice.probe_media_devices (islink : String → Bool) (realpath : String → String)
    (fileExists : String → Bool) (readFile : String → String)
    (fdisk_for : String → String) (partitions_content : String) :
    Option (List MediaDevice) :=
  match MediaDevice.probe_media_paths islink realpath ((pyReadlines partitions_content).drop 2) with
  | none => none
  | some devices =>
    optMap (fun device => MediaDevice.init fileExists readFile (fdisk_for device) device)
      (devices.filter (fun device => ¬ device = ""))

/-- `StorageMediaUsb.get_size_gb` (source lines 26-27): divides
`media_device.size` by `1024 ** 3` as Python float division, raising when
`size` is `None`.  The resulting float is abstracted by the collaborator
`floatRepr`, which maps the byte count to the decimal rendering Python
would produce for `size / 1024 ** 3`. -/
def StorageMediaUsb.get_size_gb (floatRepr : Int → String) (r : StorageMediaUsb) :
    Option String :=
  r.media_device.size.map floatRepr

/-- `StorageMediaUsb.digest` (source lines 30-34): format the ten fields
into one line.  Evaluating `get_size_gb` raises when the size is unknown,
so the digest is `none` exactly then. -/
def StorageMediaUsb.digest (floatRepr : Int → String) (r : StorageMediaUsb) :
    Option String :=
  match r.media_device.size, StorageMediaUsb.get_size_gb floatRepr r with
  | some n, some gb =>
    pyFormat "mountpoint:\x7b\x7d partition:\x7b\x7d size_bytes:\x7b\x7d size_gb:\x7b\x7d format:\x7b\x7d model:\x7b\x7d vendor:\x7b\x7d device_name:\x7b\x7d block_path:\x7b\x7d media_path:\x7b\x7d"
      [r.mountpoint.mountpoint, r.mountpoint.partition, toString n, gb,
       r.mountpoint.fs_format, pyShowOpt r.media_device.model,
       pyShowOpt r.media_device.vendor, r.media_device.device_name,
       r.media_device.block_path, r.media_device.media_path]
  | _, _ => none

/-- The correlation loop of `StorageMediaUsb.probe_storage_media_usb_devices`
(source lines 46-51), as a function of the two probed lists: for each
mountable, append one `StorageMediaUsb` per media device whose partition
string-equals the mountable's partition. -/
def StorageMediaUsb.probe_storage_media_usb_devices
    (mountable_list : List Mountpoint) (media_device_list : List MediaDevice) :
    List StorageMediaUsb :=
  mountable_list.foldl
    (fun storage_media_usb_list mountable =>
      storage_media_usb_list ++
        (media_device_list.filter (fun x => x.partition == mountable.partition)).map
          (fun matched_media_device => ⟨matched_media_device, mountable⟩))
    []

/-! ### Helper lemmas about the string primitives -/

lemma dropWhile_eq_self_of_no_sat {p : Char → Bool} {l : List Char}
    (h : ∀ c ∈ l, p c = false) : l.dropWhile p = l := by
  cases l with
  | nil => rfl
  | cons a t => simp [List.dropWhile_cons, h a (by simp)]

lemma pyStrip_eq_self {s : String} (h : ∀ c ∈ s.data, pyIsSpace c = false) :
    pyStrip s = s := by
  apply String.ext
  show ((s.data.dropWhile pyIsSpace).reverse.dropWhile pyIsSpace).reverse = s.data
  rw [dropWhile_eq_self_of_no_sat h]
  rw [dropWhile_eq_self_of_no_sat (fun c hc => h c (by simpa using hc))]
  exact s.data.reverse_reverse

lemma nil_no_space : ∀ a ∈ ([] : List Char), pyIsSpace a = false := by
  intro a ha
  cases ha

lemma splitWsAux_no_space {t : String} {c : Char} :
    ∀ {l cur : List Char}, (∀ a ∈ cur, pyIsSpace a = false) →
      t ∈ splitWsAux l cur → c ∈ t.data → pyIsSpace c = false
  | [], cur, hcur, ht, hc => by
    rw [splitWsAux] at ht
    cases cur with
    | nil => simp at ht
    | cons b cs =>
      simp only [List.isEmpty_cons, if_false, Bool.false_eq_true, if_neg,
        List.mem_singleton, reduceCtorEq] at ht
      subst ht
      have hc2 : c ∈ (b :: cs).reverse := hc
      exact hcur c (List.mem_reverse.mp hc2)
  | a :: rest, cur, hcur, ht, hc => by
    rw [splitWsAux] at ht
    by_cases ha : pyIsSpace a
    · rw [if_pos ha] at ht
      cases cur with
      | nil =>
        have ht2 : t ∈ splitWsAux rest [] := by simpa using ht
        exact splitWsAux_no_space nil_no_space ht2 hc
      | cons b cs =>
        have ht2 : t ∈ (⟨(b :: cs).reverse⟩ : String) :: splitWsAux rest [] := by
          simpa using ht
        rcases List.mem_cons.mp ht2 with h1 | h2
        · subst h1
          have hc2 : c ∈ (b :: cs).reverse := hc
          exact hcur c (List.mem_reverse.mp hc2)
        · exact splitWsAux_no_space nil_no_space h2 hc
    · rw [if_neg ha] at ht
      refine splitWsAux_no_space ?_ ht hc
      intro x hx
      rcases List.mem_cons.mp hx with h1 | h2
      · subst h1; simpa using ha
      · exact hcur x h2

lemma pySplitWs_head_no_space {line t : String} {rest : List String}
    (h : pySplitWs line = t :: rest) {c : Char} (hc : c ∈ t.data) :
    pyIsSpace c = false := by
  have h2 : t ∈ splitWsAux line.data [] := by
    rw [pySplitWs] at h
    rw [h]
    simp
  exact splitWsAux_no_space nil_no_space h2 hc

lemma findSub_sound {sub : List Char} :
    ∀ {l : List Char} {i : Nat}, findSub sub l = some i →
      sub.isPrefixOf (l.drop i) = true
  | [], i, h => by
    rw [findSub] at h
    split at h
    · cases h
      simpa [List.isEmpty_iff] using ‹sub.isEmpty = true›
    · cases h
  | c :: t, i, h => by
    rw [findSub] at h
    split at h
    · cases h
      assumption
    · rcases Option.map_eq_some'.mp h with ⟨j, hj, hij⟩
      subst hij
      simpa using findSub_sound hj

lemma findSub_isSome_of_occurs {sub : List Char} :
    ∀ {l : List Char} {i : Nat}, sub.isPrefixOf (l.drop i) = true →
      (findSub sub l).isSome = true
  | [], i, h => by
    rw [List.drop_nil] at h
    have : sub = [] := by
      cases sub with
      | nil => rfl
      | cons a b => simp [List.isPrefixOf] at h
    subst this
    simp [findSub]
  | c :: t, i, h => by
    rw [findSub]
    split
    · simp
    · cases i with
      | zero =>
        rw [List.drop_zero] at h
        simp_all
      | succ j =>
        have : sub.isPrefixOf (t.drop j) = true := by simpa using h
        have := findSub_isSome_of_occurs this
        simpa using this

lemma findSub_eq_zero_of_starts {sub l : List Char}
    (h : sub.isPrefixOf l = true) : findSub sub l = some 0 := by
  cases l with
  | nil =>
    have : sub = [] := by
      cases sub with
      | nil => rfl
      | cons a b => simp [List.isPrefixOf] at h
    subst this
    simp [findSub]
  | cons c t => rw [findSub]; simp [h]

lemma pyFind_eq_of_findSub_some {s sub : String} {i : Nat}
    (hf : findSub sub.data s.data = some i) : pyFind s sub = i := by
  simp [pyFind, hf]

lemma pyFind_eq_of_findSub_none {s sub : String}
    (hf : findSub sub.data s.data = none) : pyFind s sub = -1 := by
  simp [pyFind, hf]

lemma pyFind_pos_iff (s sub : String) :
    0 < pyFind s sub ↔
      (∃ i, occursAt s.data sub.data i) ∧ ¬ occursAt s.data sub.data 0 := by
  constructor
  · intro h
    cases hf : findSub sub.data s.data with
    | none => rw [pyFind_eq_of_findSub_none hf] at h; simp at h
    | some i =>
      rw [pyFind_eq_of_findSub_some hf] at h
      have hi : 0 < i := by exact_mod_cast h
      refine ⟨⟨i, findSub_sound hf⟩, ?_⟩
      intro h0
      rw [occursAt, List.drop_zero] at h0
      rw [findSub_eq_zero_of_starts h0] at hf
      cases hf
      simp at hi
  · rintro ⟨⟨i, hi⟩, h0⟩
    have hs : (findSub sub.data s.data).isSome = true := findSub_isSome_of_occurs hi
    cases hf : findSub sub.data s.data with
    | none => rw [hf] at hs; cases hs
    | some j =>
      rw [pyFind_eq_of_findSub_some hf]
      have hj : ¬ j = 0 := by
        intro hj0
        subst hj0
        exact h0 (by simpa [occursAt, List.drop_zero] using findSub_sound hf)
      exact_mod_cast Nat.pos_of_ne_zero hj

lemma splitFirstL_sound {l sep a b : List Char}
    (h : splitFirstL l sep = some (a, b)) : l = a ++ sep ++ b ∧ ¬ a = [] := by
  cases l with
  | nil => simp [splitFirstL] at h
  | cons c t =>
    rw [splitFirstL] at h
    cases hf : findSub sep t with
    | none => rw [hf] at h; cases h
    | some j =>
      rw [hf] at h
      cases h
      have hp := findSub_sound hf
      rcases List.isPrefixOf_iff_prefix.mp hp with ⟨r, hr⟩
      have hrdrop : r = t.drop (j + sep.length) := by
        have := congrArg (List.drop sep.length) hr
        rw [List.drop_left] at this
        rw [this, List.drop_drop]
      constructor
      · have : t = t.take j ++ (sep ++ r) := by
          rw [hr]
          exact (List.take_append_drop j t).symm
        rw [hrdrop] at this
        simpa [List.append_assoc] using congrArg (fun x => c :: x) this
      · simp

lemma string_mk_ne_empty {l : List Char} (h : ¬ l = []) :
    ¬ (⟨l⟩ : String) = "" := by
  intro he
  exact h (congrArg String.data he)

lemma parseMountLine_sound {line : String} {mp : Mountpoint}
    (h : parseMountLine line = some mp) :
    line = mp.partition ++ " on " ++ mp.mountpoint ++ " type " ++ mp.fs_format
             ++ " " ++ mp.details
    ∧ ¬ mp.partition = "" ∧ ¬ mp.mountpoint = ""
    ∧ ¬ mp.fs_format = "" ∧ ¬ mp.details = "" := by
  rw [parseMountLine] at h
  split at h
  · cases h
  rename_i g1 r1 h1
  split at h
  · cases h
  rename_i g2 r2 h2
  split at h
  · cases h
  rename_i g3 g4 h3
  split at h
  · cases h
  rename_i h4
  cases h
  obtain ⟨e1, ne1⟩ := splitFirstL_sound h1
  obtain ⟨e2, ne2⟩ := splitFirstL_sound h2
  obtain ⟨e3, ne3⟩ := splitFirstL_sound h3
  refine ⟨?_, string_mk_ne_empty ne1, string_mk_ne_empty ne2,
    string_mk_ne_empty ne3, string_mk_ne_empty (by simpa [List.isEmpty_iff] using h4)⟩
  apply String.ext
  show line.data = g1 ++ " on ".data ++ g2 ++ " type ".data ++ g3
    ++ " ".data ++ g4
  rw [e1, e2, e3]
  simp [List.append_assoc]

lemma probe_loop_eq_optMap :
    ∀ lines : List String,
      Mountpoint.probe_loop lines
        = optMap parseMountLine (lines.filter (fun s => ¬ s = ""))
  | [] => rfl
  | line :: rest => by
    rw [Mountpoint.probe_loop]
    by_cases he : line = ""
    · rw [if_pos he]
      rw [List.filter_cons_of_neg (by simp [he])]
      exact probe_loop_eq_optMap rest
    · rw [if_neg he]
      rw [List.filter_cons_of_pos (by simp [he])]
      rw [optMap]
      cases parseMountLine line with
      | none => rfl
      | some r => rw [probe_loop_eq_optMap rest]

lemma optMap_eq_none_of_mem {f : α → Option β} :
    ∀ {l : List α} {a : α}, a ∈ l → f a = none → optMap f l = none
  | b :: t, a, ha, hfa => by
    rw [optMap]
    rcases List.mem_cons.mp ha with h1 | h2
    · subst h1
      rw [hfa]
    · cases hfb : f b with
      | none => rfl
      | some v => rw [optMap_eq_none_of_mem h2 hfa]; rfl

lemma foldl_append_eq_flatMap {α β : Type} (f : α → List β) :
    ∀ (l : List α) (init : List β),
      l.foldl (fun acc a => acc ++ f a) init = init ++ l.flatMap f
  | [], init => by simp
  | a :: rest, init => by
    rw [List.foldl_cons, foldl_append_eq_flatMap f rest, List.flatMap_cons,
      List.append_assoc]

lemma MediaDevice.init_spec {fileExists : String → Bool} {readFile : String → String}
    {fdisk_output device : String} {d : MediaDevice}
    (h : MediaDevice.init fileExists readFile fdisk_output device = some d) :
    d.device = device
    ∧ d.device_name = pyBasename device
    ∧ d.block_path = "/sys/block/" ++ pyBasename device
    ∧ d.media_path = "/media/" ++ pyBasename device
    ∧ (∃ p, MediaDevice.fdisk_partition fdisk_output = some p ∧ d.partition = p)
    ∧ d.removable =
        (if fileExists ("/sys/block/" ++ pyBasename device ++ "/removable") then
          some (pyStrip (readFile ("/sys/block/" ++ pyBasename device ++ "/removable")) == "1")
        else none)
    ∧ ((fileExists ("/sys/block/" ++ pyBasename device ++ "/size") = false ∧ d.size = none)
       ∨ (fileExists ("/sys/block/" ++ pyBasename device ++ "/size") = true
          ∧ ∃ n, pyInt (pyStrip (readFile ("/sys/block/" ++ pyBasename device ++ "/size"))) = some n
              ∧ d.size = some (n * 512)))
    ∧ d.vendor =
        (if fileExists ("/sys/block/" ++ pyBasename device ++ "/device/vendor") then
          some (pyStrip (readFile ("/sys/block/" ++ pyBasename device ++ "/device/vendor")))
        else none)
    ∧ d.model =
        (if fileExists ("/sys/block/" ++ pyBasename device ++ "/device/model") then
          some (pyStrip (readFile ("/sys/block/" ++ pyBasename device ++ "/device/model")))
        else none) := by
  rw [MediaDevice.init] at h
  cases hp : MediaDevice.fdisk_partition fdisk_output with
  | none => rw [hp] at h; simp at h
  | some p =>
    rw [hp] at h
    by_cases hf : fileExists ("/sys/block/" ++ pyBasename device ++ "/size") = true
    · rw [if_pos hf] at h
      cases hn : pyInt (pyStrip (readFile ("/sys/block/" ++ pyBasename device ++ "/size"))) with
      | none => rw [hn] at h; simp at h
      | some n =>
        rw [hn] at h
        simp only [Option.some.injEq] at h
        subst h
        refine ⟨rfl, rfl, rfl, rfl, ⟨p, rfl, rfl⟩, rfl, ?_, rfl, rfl⟩
        exact Or.inr ⟨hf, n, rfl, rfl⟩
    · rw [if_neg hf] at h
      simp only [Option.some.injEq] at h
      subst h
      refine ⟨rfl, rfl, rfl, rfl, ⟨p, rfl, rfl⟩, rfl, ?_, rfl, rfl⟩
      exact Or.inl ⟨Bool.eq_false_iff.mpr hf, rfl⟩

lemma digestFormatEval (a1 a2 a3 a4 a5 a6 a7 a8 a9 a10 : String) :
    pyFormat "mountpoint:\x7b\x7d partition:\x7b\x7d size_bytes:\x7b\x7d size_gb:\x7b\x7d format:\x7b\x7d model:\x7b\x7d vendor:\x7b\x7d device_name:\x7b\x7d block_path:\x7b\x7d media_path:\x7b\x7d"
      [a1, a2, a3, a4, a5, a6, a7, a8, a9, a10]
    = some ("mountpoint:" ++ (a1 ++ (" partition:" ++ (a2 ++ (" size_bytes:" ++ (a3 ++
        (" size_gb:" ++ (a4 ++ (" format:" ++ (a5 ++ (" model:" ++ (a6 ++
        (" vendor:" ++ (a7 ++ (" device_name:" ++ (a8 ++ (" block_path:" ++ (a9 ++
        (" media_path:" ++ a10))))))))))))))))))) := rfl

/-! ### Claim theorems -/

/-- C1: the Correlator emits exactly one `StorageMediaUsb` per
(mountable, media device) pair whose partition strings are equal; the
output is the flat map over mountables (mount-table order) of the
partition-matching media devices (device-probe order), its length is the
sum over mountables of the matching-device counts, and it is empty when
the mountable list is empty. -/
theorem C1_correlator_pairs (media_device_list : List MediaDevice)
    (mountable_list : List Mountpoint) :
    StorageMediaUsb.probe_storage_media_usb_devices mountable_list media_device_list
      = mountable_list.flatMap (fun mountable =>
          (media_device_list.filter (fun x => x.partition == mountable.partition)).map
            (fun matched_media_device => ⟨matched_media_device, mountable⟩))
    ∧ StorageMediaUsb.probe_storage_media_usb_devices [] media_device_list = []
    ∧ (StorageMediaUsb.probe_storage_media_usb_devices mountable_list media_device_list).length
        = (mountable_list.map (fun mountable =>
            (media_device_list.filter (fun x => x.partition == mountable.partition)).length)).sum := by
  have key : ∀ ms : List Mountpoint,
      StorageMediaUsb.probe_storage_media_usb_devices ms media_device_list
        = ms.flatMap (fun mountable =>
            (media_device_list.filter (fun x => x.partition == mountable.partition)).map
              (fun matched_media_device => ⟨matched_media_device, mountable⟩)) := by
    intro ms
    rw [StorageMediaUsb.probe_storage_media_usb_devices, foldl_append_eq_flatMap]
    rw [List.nil_append]
  refine ⟨key mountable_list, key [], ?_⟩
  rw [key]
  simp [List.length_flatMap, Function.comp_def, List.length_map]

/-- C2: the partition derived from the disk-partitioning probe's output is
the first whitespace token of the second-to-last line of the output split
on newlines; on the spec's scenario output whose second-to-last line is
`/dev/sdb1  *  2048  999999  498975  83  Linux` it equals `/dev/sdb1`. -/
theorem C2_fdisk_partition :
    (∀ (out line t : String) (rest : List String),
      2 ≤ (pyLines out).length →
      (pyLines out).get? ((pyLines out).length - 2) = some line →
      pySplitWs line = t :: rest →
      MediaDevice.fdisk_partition out = some t)
    ∧ MediaDevice.fdisk_partition
        "Disk /dev/sdb: 512 MB\nDevice Boot Start End Blocks Id System\n/dev/sdb1  *  2048  999999  498975  83  Linux\n"
        = some "/dev/sdb1" := by
  constructor
  · intro out line t rest h2 hget hsplit
    rw [MediaDevice.fdisk_partition]
    simp only [if_pos h2, hget, hsplit]
    rw [pyStrip_eq_self (fun c hc => pySplitWs_head_no_space hsplit hc)]
  · decide

/-- C2 witness: the general statement applied to a concrete three-line
output. -/
theorem C2_fdisk_partition_witness :
    MediaDevice.fdisk_partition "a\nbb cc dd\n" = some "bb" :=
  C2_fdisk_partition.1 "a\nbb cc dd\n" "bb cc dd" "bb" ["cc", "dd"]
    (by decide) (by decide) (by decide)

/-- C3: evidence for the already-mounted case of `mount_partition`.  The
claim says the call returns the post-operation mounted state (`true`)
when the device is already mounted; the code's `if not self.is_mounted()`
branch has no `else`, so the Python function returns `None` there.  At a
concrete already-mounted device the model returns `none`, not
`some true`. -/
theorem C3_mount_partition_already_mounted :
    (⟨"/dev/sda", "sda", "/sys/block/sda", "/media/sda", "/dev/sda1",
        none, none, none, none⟩ : MediaDevice).is_mounted ⟨fun _ => true⟩ = true
    ∧ (MediaDevice.mount_partition id id
        ⟨"/dev/sda", "sda", "/sys/block/sda", "/media/sda", "/dev/sda1",
          none, none, none, none⟩ ⟨fun _ => true⟩).fst = none
    ∧ ¬ (MediaDevice.mount_partition id id
        ⟨"/dev/sda", "sda", "/sys/block/sda", "/media/sda", "/dev/sda1",
          none, none, none, none⟩ ⟨fun _ => true⟩).fst = some true := by
  refine ⟨rfl, rfl, ?_⟩
  intro h
  cases h

/-- C5: a partition-listing row whose minor number is not a multiple of 16
contributes no candidate device, and a row that does contribute a
candidate has a minor number that is a multiple of 16. -/
theorem C5_minor_filter (islink : String → Bool) (realpath : String → String)
    (line : String) (minor_number : Int) (device_name : String)
    (hparse : parseRow line = some (minor_number, device_name)) :
    (¬ minor_number % 16 = 0 → processRow islink realpath line = some [])
    ∧ (∀ ds, processRow islink realpath line = some ds → ¬ ds = [] →
        minor_number % 16 = 0) := by
  constructor
  · intro hm
    rw [processRow]
    simp only [hparse]
    rw [if_neg hm]
  · intro ds hds hne
    by_contra hm
    rw [processRow] at hds
    simp only [hparse] at hds
    rw [if_neg hm] at hds
    cases hds
    exact hne rfl

/-- C5 witness: the row `8 17 1000 sda1` has minor number 17, which is not
a multiple of 16, so it is excluded even though its class-block link and
USB marker checks would pass. -/
theorem C5_minor_filter_witness :
    processRow (fun _ => true) (fun _ => "/sys/devices/pci0/usb1/sdb")
      "8 17 1000 sda1" = some [] :=
  (C5_minor_filter (fun _ => true) (fun _ => "/sys/devices/pci0/usb1/sdb")
    "8 17 1000 sda1" 17 "sda1" (by decide)).1 (by decide)

/-- C4 counterexample: the claim says a device is kept whenever its
class-block entry is a link and the resolved path contains the USB marker
at any position; with the resolved path `/usb/1-1/sda`, the marker occurs
at position 0, the link check passes, the minor number is 0 (a multiple
of 16), and yet the row contributes no candidate, because the source
tests `find("/usb") > 0`, which excludes position 0. -/
theorem C4_counterexample :
    ((fun _ => true : String → Bool) ("/sys/class/block/sda") = true)
    ∧ occursAt ((fun _ => "/usb/1-1/sda" : String → String)
        ("/sys/class/block/sda")).data "/usb".data 0
    ∧ parseRow "8 0 1000 sda" = some (0, "sda")
    ∧ processRow (fun _ => true) (fun _ => "/usb/1-1/sda") "8 0 1000 sda"
        = some [] := by
  refine ⟨rfl, by decide, by decide, by decide⟩

/-- C4 (amended): for a well-formed row whose minor number is a multiple
of 16, the device is kept if and only if the class-block entry is a link
and the resolved real path contains the USB marker at some position other
than the start; otherwise the row contributes nothing. -/
theorem C4_usb_marker (islink : String → Bool) (realpath : String → String)
    (line : String) (minor_number : Int) (device_name : String)
    (hparse : parseRow line = some (minor_number, device_name))
    (hm : minor_number % 16 = 0) :
    (processRow islink realpath line = some ["/dev/" ++ device_name]
      ↔ islink ("/sys/class/block/" ++ device_name) = true
        ∧ (∃ i, occursAt (realpath ("/sys/class/block/" ++ device_name)).data
            "/usb".data i)
        ∧ ¬ occursAt (realpath ("/sys/class/block/" ++ device_name)).data
            "/usb".data 0)
    ∧ (¬ (islink ("/sys/class/block/" ++ device_name) = true
          ∧ (∃ i, occursAt (realpath ("/sys/class/block/" ++ device_name)).data
              "/usb".data i)
          ∧ ¬ occursAt (realpath ("/sys/class/block/" ++ device_name)).data
              "/usb".data 0)
       → processRow islink realpath line = some []) := by
  have hred : processRow islink realpath line
      = (if islink ("/sys/class/block/" ++ device_name) then
          (if 0 < pyFind (realpath ("/sys/class/block/" ++ device_name)) "/usb"
            then some ["/dev/" ++ device_name] else some [])
        else some []) := by
    rw [processRow]
    simp only [hparse]
    rw [if_pos hm]
  rw [hred]
  by_cases hl : islink ("/sys/class/block/" ++ device_name) = true
  · rw [if_pos hl]
    by_cases hu : 0 < pyFind (realpath ("/sys/class/block/" ++ device_name)) "/usb"
    · rw [if_pos hu]
      have hocc := (pyFind_pos_iff (realpath ("/sys/class/block/" ++ device_name)) "/usb").mp hu
      exact ⟨⟨fun _ => ⟨hl, hocc.1, hocc.2⟩, fun _ => rfl⟩,
        fun hcon => absurd ⟨hl, hocc.1, hocc.2⟩ hcon⟩
    · rw [if_neg hu]
      have hnot : ¬ ((∃ i, occursAt (realpath ("/sys/class/block/" ++ device_name)).data
            "/usb".data i)
          ∧ ¬ occursAt (realpath ("/sys/class/block/" ++ device_name)).data
            "/usb".data 0) := fun hc =>
        hu ((pyFind_pos_iff (realpath ("/sys/class/block/" ++ device_name)) "/usb").mpr hc)
      refine ⟨⟨fun he => ?_, fun hc => absurd ⟨hc.2.1, hc.2.2⟩ hnot⟩, fun _ => rfl⟩
      simp at he
  · rw [if_neg hl]
    refine ⟨⟨fun he => ?_, fun hc => absurd hc.1 hl⟩, fun _ => rfl⟩
    simp at he

/-- C4 witness: with the marker at a nonzero position the amended
criterion keeps the row: resolved path `/a/usb` contains `/usb` at
position 2 and not at position 0, so row `8 16 1000 sdb` yields
`/dev/sdb`. -/
theorem C4_usb_marker_witness :
    processRow (fun _ => true) (fun _ => "/a/usb") "8 16 1000 sdb"
      = some ["/dev/sdb"] :=
  (C4_usb_marker (fun _ => true) (fun _ => "/a/usb") "8 16 1000 sdb" 16 "sdb"
    (by decide) (by decide)).1.mpr ⟨rfl, ⟨2, by decide⟩, by decide⟩

/-- C6: `probe_mountpoints` parses every non-empty line of the `mount`
output in order, one `Mountpoint` per line; a parsed record's four fields
reassemble the line under the fixed `SOURCE on MOUNTPOINT type FSTYPE
DETAILS` pattern with all fields nonempty; a non-empty line that does not
match makes the whole probe fail with no partial result; and the spec's
scenario line parses to the expected record. -/
theorem C6_mount_table_parse (mount_output : String) :
    Mountpoint.probe_mountpoints mount_output
      = optMap parseMountLine ((pyLines mount_output).filter (fun s => ¬ s = ""))
    ∧ (∀ (line : String) (mp : Mountpoint), parseMountLine line = some mp →
        line = mp.partition ++ " on " ++ mp.mountpoint ++ " type "
                 ++ mp.fs_format ++ " " ++ mp.details
        ∧ ¬ mp.partition = "" ∧ ¬ mp.mountpoint = ""
        ∧ ¬ mp.fs_format = "" ∧ ¬ mp.details = "")
    ∧ (∀ line : String, line ∈ pyLines mount_output → ¬ line = "" →
        parseMountLine line = none →
        Mountpoint.probe_mountpoints mount_output = none)
    ∧ parseMountLine "/dev/sdb1 on /media/sdb1 type vfat rw,relatime"
        = some ⟨"/dev/sdb1", "/media/sdb1", "vfat", "rw,relatime"⟩ := by
  refine ⟨probe_loop_eq_optMap (pyLines mount_output),
    fun line mp h => parseMountLine_sound h, ?_, by decide⟩
  intro line hmem hne hnone
  rw [Mountpoint.probe_mountpoints, probe_loop_eq_optMap]
  exact optMap_eq_none_of_mem
    (List.mem_filter.mpr ⟨hmem, by simpa using hne⟩) hnone

/-- C6 witness: a `mount` output with one well-formed line followed by one
malformed line makes the whole probe fail. -/
theorem C6_mount_table_parse_witness :
    Mountpoint.probe_mountpoints "ok on a type b c\nbad line" = none :=
  (C6_mount_table_parse "ok on a type b c\nbad line").2.2.1 "bad line"
    (by decide) (by decide) (by decide)

/-- C7: each of the four optional sysfs attributes of a constructed
`MediaDevice` is tri-state: absent file means the `none` sentinel (never
zero, false, or the empty string), present file means the parsed and
trimmed content. -/
theorem C7_tristate_attributes (fileExists : String → Bool)
    (readFile : String → String) (fdisk_output device : String)
    (d : MediaDevice)
    (h : MediaDevice.init fileExists readFile fdisk_output device = some d) :
    (fileExists ("/sys/block/" ++ pyBasename device ++ "/removable") = false →
      d.removable = none)
    ∧ (fileExists ("/sys/block/" ++ pyBasename device ++ "/removable") = true →
        d.removable = some (pyStrip
          (readFile ("/sys/block/" ++ pyBasename device ++ "/removable")) == "1"))
    ∧ (fileExists ("/sys/block/" ++ pyBasename device ++ "/size") = false →
        d.size = none)
    ∧ (fileExists ("/sys/block/" ++ pyBasename device ++ "/size") = true →
        ∃ n, pyInt (pyStrip
            (readFile ("/sys/block/" ++ pyBasename device ++ "/size"))) = some n
          ∧ d.size = some (n * 512))
    ∧ (fileExists ("/sys/block/" ++ pyBasename device ++ "/device/vendor") = false →
        d.vendor = none)
    ∧ (fileExists ("/sys/block/" ++ pyBasename device ++ "/device/vendor") = true →
        d.vendor = some (pyStrip
          (readFile ("/sys/block/" ++ pyBasename device ++ "/device/vendor"))))
    ∧ (fileExists ("/sys/block/" ++ pyBasename device ++ "/device/model") = false →
        d.model = none)
    ∧ (fileExists ("/sys/block/" ++ pyBasename device ++ "/device/model") = true →
        d.model = some (pyStrip
          (readFile ("/sys/block/" ++ pyBasename device ++ "/device/model")))) := by
  obtain ⟨-, -, -, -, -, hrem, hsize, hven, hmod⟩ := MediaDevice.init_spec h
  refine ⟨?_, ?_, ?_, ?_, ?_, ?_, ?_, ?_⟩
  · intro hc; rw [hrem, if_neg (by simp [hc])]
  · intro hc; rw [hrem, if_pos hc]
  · intro hc
    rcases hsize with ⟨-, hs⟩ | ⟨hc2, -⟩
    · exact hs
    · rw [hc] at hc2; cases hc2
  · intro hc
    rcases hsize with ⟨hc2, -⟩ | ⟨-, hn⟩
    · rw [hc] at hc2; cases hc2
    · exact hn
  · intro hc; rw [hven, if_neg (by simp [hc])]
  · intro hc; rw [hven, if_pos hc]
  · intro hc; rw [hmod, if_neg (by simp [hc])]
  · intro hc; rw [hmod, if_pos hc]

/-- C7 witness: with every sysfs file absent, all four attributes are the
`none` sentinel. -/
theorem C7_tristate_attributes_witness :
    MediaDevice.init (fun _ => false) (fun _ => "") "x\ny z\n" "/dev/sda"
      = some ⟨"/dev/sda", "sda", "/sys/block/sda", "/media/sda", "y",
              none, none, none, none⟩
    ∧ (⟨"/dev/sda", "sda", "/sys/block/sda", "/media/sda", "y",
        none, none, none, none⟩ : MediaDevice).removable = none
    ∧ (⟨"/dev/sda", "sda", "/sys/block/sda", "/media/sda", "y",
        none, none, none, none⟩ : MediaDevice).size = none
    ∧ (⟨"/dev/sda", "sda", "/sys/block/sda", "/media/sda", "y",
        none, none, none, none⟩ : MediaDevice).vendor = none
    ∧ (⟨"/dev/sda", "sda", "/sys/block/sda", "/media/sda", "y",
        none, none, none, none⟩ : MediaDevice).model = none := by
  have h : MediaDevice.init (fun _ => false) (fun _ => "") "x\ny z\n" "/dev/sda"
      = some ⟨"/dev/sda", "sda", "/sys/block/sda", "/media/sda", "y",
              none, none, none, none⟩ := by decide
  obtain ⟨h1, -, h3, -, h5, -, h7, -⟩ :=
    C7_tristate_attributes (fun _ => false) (fun _ => "") "x\ny z\n" "/dev/sda" _ h
  exact ⟨h, h1 rfl, h3 rfl, h5 rfl, h7 rfl⟩

/-- C8: when the sysfs size file is present and holds an integer sector
count `n`, the constructed device's size in bytes is exactly `n * 512`. -/
theorem C8_size_conversion (fileExists : String → Bool)
    (readFile : String → String) (fdisk_output device : String)
    (d : MediaDevice) (n : Int)
    (h : MediaDevice.init fileExists readFile fdisk_output device = some d)
    (hf : fileExists ("/sys/block/" ++ pyBasename device ++ "/size") = true)
    (hn : pyInt (pyStrip
        (readFile ("/sys/block/" ++ pyBasename device ++ "/size"))) = some n) :
    d.size = some (n * 512) := by
  obtain ⟨-, -, -, -, -, -, hsize, -, -⟩ := MediaDevice.init_spec h
  rcases hsize with ⟨hc, -⟩ | ⟨-, m, hm, hd⟩
  · rw [hf] at hc; cases hc
  · rw [hn] at hm; cases hm; exact hd

/-- C8 witness: a size file holding 1024 sectors yields 1024 * 512
bytes. -/
theorem C8_size_conversion_witness :
    MediaDevice.init (fun _ => true) (fun _ => "1024") "x\ny z\n" "/dev/sdb"
      = some ⟨"/dev/sdb", "sdb", "/sys/block/sdb", "/media/sdb", "y",
              some false, some 524288, some "1024", some "1024"⟩
    ∧ (⟨"/dev/sdb", "sdb", "/sys/block/sdb", "/media/sdb", "y",
        some false, some 524288, some "1024", some "1024"⟩ : MediaDevice).size
        = some (1024 * 512) := by
  have h : MediaDevice.init (fun _ => true) (fun _ => "1024") "x\ny z\n" "/dev/sdb"
      = some ⟨"/dev/sdb", "sdb", "/sys/block/sdb", "/media/sdb", "y",
              some false, some 524288, some "1024", some "1024"⟩ := by decide
  exact ⟨h, C8_size_conversion (fun _ => true) (fun _ => "1024") "x\ny z\n"
    "/dev/sdb" _ 1024 h rfl (by decide)⟩

/-- C9: the digest is a pure, deterministic function of the record (two
applications yield the same result), and whenever it produces a string
the string is the single line of space-separated `key:value` fields in
the fixed order mountpoint, partition, size_bytes, size_gb, format,
model, vendor, device_name, block_path, media_path. -/
theorem C9_digest_deterministic_format (floatRepr : Int → String)
    (r : StorageMediaUsb) :
    StorageMediaUsb.digest floatRepr r = StorageMediaUsb.digest floatRepr r
    ∧ (∀ n : Int, r.media_device.size = some n →
        StorageMediaUsb.digest floatRepr r
          = some ("mountpoint:" ++ (r.mountpoint.mountpoint ++ (" partition:"
              ++ (r.mountpoint.partition ++ (" size_bytes:" ++ (toString n
              ++ (" size_gb:" ++ (floatRepr n ++ (" format:"
              ++ (r.mountpoint.fs_format ++ (" model:"
              ++ (pyShowOpt r.media_device.model ++ (" vendor:"
              ++ (pyShowOpt r.media_device.vendor ++ (" device_name:"
              ++ (r.media_device.device_name ++ (" block_path:"
              ++ (r.media_device.block_path ++ (" media_path:"
              ++ r.media_device.media_path)))))))))))))))))))) := by
  refine ⟨rfl, ?_⟩
  intro n hn
  simp only [StorageMediaUsb.digest, StorageMediaUsb.get_size_gb, hn,
    Option.map_some']
  exact digestFormatEval r.mountpoint.mountpoint r.mountpoint.partition
    (toString n) (floatRepr n) r.mountpoint.fs_format
    (pyShowOpt r.media_device.model) (pyShowOpt r.media_device.vendor)
    r.media_device.device_name r.media_device.block_path
    r.media_device.media_path

set_option maxRecDepth 8192 in
/-- C9 witness: the digest of a concrete record, with a concrete rendering
for the float division. -/
theorem C9_digest_deterministic_format_witness :
    StorageMediaUsb.digest (fun _ => "0.0005")
      ⟨⟨"/dev/sdb", "sdb", "/sys/block/sdb", "/media/sdb", "/dev/sdb1",
        some true, some 524288, some "V", none⟩,
       ⟨"/dev/sdb1", "/media/sdb1", "vfat", "rw"⟩⟩
    = some ("mountpoint:/media/sdb1 partition:/dev/sdb1 size_bytes:524288"
        ++ " size_gb:0.0005 format:vfat model:None vendor:V device_name:sdb"
        ++ " block_path:/sys/block/sdb media_path:/media/sdb") := by
  have h := (C9_digest_deterministic_format (fun _ => "0.0005")
    ⟨⟨"/dev/sdb", "sdb", "/sys/block/sdb", "/media/sdb", "/dev/sdb1",
      some true, some 524288, some "V", none⟩,
     ⟨"/dev/sdb1", "/media/sdb1", "vfat", "rw"⟩⟩).2 524288 rfl
  exact h.trans (by decide)

/-- C10: `get_size_gb` and `digest` are defined exactly when the
underlying device's size is present; with the unknown-size sentinel both
raise (return `none`), because size_gb divides the size by 1024^3. -/
theorem C10_digest_requires_size (floatRepr : Int → String)
    (r : StorageMediaUsb) :
    (StorageMediaUsb.get_size_gb floatRepr r = none ↔ r.media_device.size = none)
    ∧ (StorageMediaUsb.digest floatRepr r = none ↔ r.media_device.size = none) := by
  cases hs : r.media_device.size with
  | none =>
    constructor
    · simp [StorageMediaUsb.get_size_gb, hs]
    · simp [StorageMediaUsb.digest, hs]
  | some n =>
    constructor
    · simp [StorageMediaUsb.get_size_gb, hs]
    · simp only [StorageMediaUsb.digest, StorageMediaUsb.get_size_gb, hs,
        Option.map_some']
      rw [digestFormatEval r.mountpoint.mountpoint r.mountpoint.partition
        (toString n) (floatRepr n) r.mountpoint.fs_format
        (pyShowOpt r.media_device.model) (pyShowOpt r.media_device.vendor)
        r.media_device.device_name r.media_device.block_path
        r.media_device.media_path]
      simp
